import Mathlib

/-!
Shallow embedding of the `muts-endpoint` repository's dispatch-relevant code:
the `redacted`, `cors` and `endpoint` decorators from `src/decorators.ts`
and the `xdelete` decorator from `src/endpoints/decorators/xdelete.ts`.

JS strings are Lean `String`s, except where `toUpperCase` matters (the route
action), which is modelled on lists of ASCII code points.  Promises are
modelled by `Except String HTTPResponse` (a rejection carries its `.message`).
Opaque JS values (request bodies, schemas, function identities, class
identities) are modelled as `Nat`.
-/

namespace Muts

/-- Header maps.  `Model.ts` is not part of the sources; the spec describes
response headers as a `mapping string→string` with unique keys, so a header
map is an association list where setting an existing key replaces its value
and setting a fresh key appends it. -/
def setH : List (String × String) → String → String → List (String × String)
  | [], k, v => [(k, v)]
  | (k0, v0) :: rest, k, v =>
      if k0 = k then (k, v) :: rest else (k0, v0) :: setH rest k v

/-- Header lookup in an association list. -/
def getH : List (String × String) → String → Option String
  | [], _ => none
  | (k0, v0) :: rest, k => if k0 = k then some v0 else getH rest k

/-- The value stored under `message` in an error body: either the JS `Set`
of validation error strings or a single failure-message string. -/
inductive MessageVal where
  | strset (s : Finset String)
  | str (s : String)
deriving DecidableEq

/-- Response bodies: either a value the handler itself produced (opaque) or
an error body `\x7b message: … \x7d` built by the wrapper. -/
inductive HTTPBody where
  | opaqueVal (n : Nat)
  | message (m : MessageVal)
deriving DecidableEq

/-- Modelled from the spec: `DispatchResponse` is
`\x7b statusCode: integer, body: value, headers: mapping string→string \x7d`
(`HTTPResponse` lives in `Model.ts`, which is not among the sources). -/
structure HTTPResponse where
  statusCode : Nat
  body : HTTPBody
  headers : List (String × String)
deriving DecidableEq

/-- Modelled from the spec: `HTTPResponse.setBody` is the static constructor
used as `HTTPResponse.setBody({...})` in `decorators.ts`; it creates a fresh
response carrying the given body and no headers yet. -/
def HTTPResponse.setBody (b : HTTPBody) : HTTPResponse :=
  { statusCode := 200, body := b, headers := [] }

/-- Modelled from the spec: fluent status-code setter on `HTTPResponse`. -/
def HTTPResponse.setStatusCode (r : HTTPResponse) (c : Nat) : HTTPResponse :=
  { r with statusCode := c }

/-- Modelled from the spec: `addHeader` sets one header (unique keys). -/
def HTTPResponse.addHeader (r : HTTPResponse) (k v : String) : HTTPResponse :=
  { r with headers := setH r.headers k v }

/-- Modelled from the spec: `addHeaders` sets each entry of the given map. -/
def HTTPResponse.addHeaders (r : HTTPResponse) (l : List (String × String)) :
    HTTPResponse :=
  { r with headers := l.foldl (fun h p => setH h p.1 p.2) r.headers }

/-- `requestContext` of an incoming event (`event.requestContext.requestId`). -/
structure RequestContext where
  requestId : String
deriving DecidableEq

/-- An incoming `HTTPEvent`: its (opaque, already parsed) body and its
request context.  Other event fields are irrelevant to the wrapped code. -/
structure HTTPEvent where
  body : Nat
  requestContext : RequestContext
deriving DecidableEq

/-- One entry of the `validations` argument: `validation.schema` is the only
field the code reads; schemas are opaque. -/
structure Validation where
  schema : Nat
deriving DecidableEq

/-- The error set built by `endpoint`'s wrapper:
`validations.forEach(v => validationErrors.add(validate(event.body, v.schema)))`.
Note the source adds every validator result to the `Set`, the empty string
included. -/
def validationErrorsOf (validate : Nat → Nat → String) (body : Nat)
    (validations : List Validation) : Finset String :=
  validations.foldl (fun s v => insert (validate body v.schema) s) ∅

/-- The list of `(body, schema)` calls the `forEach` loop issues to the
external validator: one per validation, unconditionally. -/
def validatorCalls (body : Nat) (validations : List Validation) :
    List (Nat × Nat) :=
  validations.map (fun v => (body, v.schema))

/-- Outcome of one dispatch through `endpoint`'s wrapper, instrumented with
whether the wrapped target method was invoked. -/
structure DispatchResult where
  response : HTTPResponse
  handlerCalled : Bool
deriving DecidableEq

/-- The wrapper `endpoint` installs as `descriptor.value` in
`src/decorators.ts`: run every validation into a `Set`, short-circuit with a
400 when the set is non-empty, otherwise invoke the target method, adding the
`X-REQUEST-ID` header on fulfilment and turning a rejection into a 501.
`validations` is `arguments[2]`, possibly absent (`none`); a JS array, empty
or not, is truthy. -/
def endpointDispatch (validate : Nat → Nat → String)
    (handler : HTTPEvent → Except String HTTPResponse)
    (event : HTTPEvent) (validations : Option (List Validation)) :
    DispatchResult :=
  let rid := event.requestContext.requestId
  let run : DispatchResult :=
    match handler event with
    | Except.ok response => ⟨response.addHeader "X-REQUEST-ID" rid, true⟩
    | Except.error msg =>
        ⟨((HTTPResponse.setBody (HTTPBody.message (MessageVal.str msg))).setStatusCode
            501).addHeader "X-REQUEST-ID" rid, true⟩
  match validations with
  | none => run
  | some vs =>
      let validationErrors := validationErrorsOf validate event.body vs
      if validationErrors.card ≠ 0 then
        ⟨((HTTPResponse.setBody (HTTPBody.message (MessageVal.strset validationErrors))).setStatusCode
            400).addHeader "X-REQUEST-ID" rid, false⟩
      else run

/-- The `allowedOrigin` parameter of `cors`: a static string or a
caller-supplied function of `(event, response)`. -/
inductive AllowedOrigin where
  | static (s : String)
  | fn (f : HTTPEvent → HTTPResponse → String)

/-- The origin value `cors` computes:
`typeof allowedOrigin === 'string' ? allowedOrigin : allowedOrigin(event, response)`. -/
def originOf (allowedOrigin : AllowedOrigin) (event : HTTPEvent)
    (response : HTTPResponse) : String :=
  match allowedOrigin with
  | AllowedOrigin.static s => s
  | AllowedOrigin.fn f => f event response

/-- The `.then` continuation `cors` attaches to the target method's promise in
`src/decorators.ts`: add the origin and credentials headers unconditionally,
then the methods header if `allowedActions` was supplied and the headers
header if `allowedHeaders` was supplied.  `allowedHeaders` is an `HTTPHeaders`
object; `Object.keys` enumerates its keys in insertion order.  A JS array or
object is truthy even when empty, so `some []` still adds its header. -/
def corsDecorate (allowedOrigin : AllowedOrigin)
    (allowedActions : Option (List String))
    (allowedHeaders : Option (List (String × String)))
    (allowCredentials : Bool)
    (event : HTTPEvent) (response : HTTPResponse) : HTTPResponse :=
  let origin := originOf allowedOrigin event response
  let r1 := response.addHeaders
    [("Access-Control-Allow-Origin", origin),
     ("Access-Control-Allow-Credentials", if allowCredentials then "true" else "false")]
  let r2 := match allowedActions with
    | some acts => r1.addHeader "Access-Control-Allow-Methods" (String.intercalate ", " acts)
    | none => r1
  match allowedHeaders with
  | some hs => r2.addHeader "Access-Control-Allow-Headers"
      (String.intercalate ", " (hs.map (fun p => p.1)))
  | none => r2

/-- ASCII uppercasing of one code point, the effect of JS
`String.prototype.toUpperCase` on the ASCII action strings at hand. -/
def upChar (n : Nat) : Nat :=
  if 97 ≤ n ∧ n ≤ 122 then n - 32 else n

/-- JS `action.toUpperCase()` on a string given as its list of code points. -/
def toUpperCase (s : List Nat) : List Nat :=
  s.map upChar

/-- The action key `endpoint` hands to `EndpointRouter.register` for a string
action: `routeAction = action.toUpperCase()` followed by
`routeAction.toUpperCase()` at the registration call. -/
def registeredAction (action : List Nat) : List Nat :=
  toUpperCase (toUpperCase action)

/-- The HTTP actions of `model/HttpAction` (not among the sources; the spec
lists `enum\x7bGET,POST,PUT,DELETE,PATCH,...\x7d`). -/
inductive HttpAction where
  | GET | POST | PUT | DELETE | PATCH
deriving DecidableEq

/-- The registration record `xdelete` passes to `Router.register`: the path,
the declaring class (`target.constructor`), the action, the decorated
method's name (`propertyKey`) and its function value (`descriptor.value`). -/
structure RouteRegistration where
  path : String
  clazz : Nat
  action : HttpAction
  functionName : String
  function : Nat
deriving DecidableEq

/-- A decoration target: only its `constructor` identity is read. -/
structure Target where
  constructor : Nat
deriving DecidableEq

/-- A property descriptor: only its `value` (the method) is read. -/
structure PropertyDescriptor where
  value : Nat
deriving DecidableEq

/-- The `xdelete` decorator from `src/endpoints/decorators/xdelete.ts`:
register the method under `HttpAction.DELETE` and return the descriptor.
Its result pairs the record sent to `Router.register` with the returned
descriptor. -/
def xdelete (path : String) (target : Target) (propertyKey : String)
    (descriptor : PropertyDescriptor) : RouteRegistration × PropertyDescriptor :=
  ({ path := path
     clazz := target.constructor
     action := HttpAction.DELETE
     functionName := propertyKey
     function := descriptor.value }, descriptor)

/-- A value stored in the `__MU-TS` metadata object: the `redacted` key holds
an array of property names; any other entry is opaque. -/
inductive MetaVal where
  | strs (l : List String)
  | opaqueVal (n : Nat)
deriving DecidableEq

/-- A metadata object, a JS object read and written by string key. -/
def MetaObj := List (String × MetaVal)

/-- Lookup in a metadata object. -/
def getMeta : List (String × MetaVal) → String → Option MetaVal
  | [], _ => none
  | (k0, v0) :: rest, k => if k0 = k then some v0 else getMeta rest k

/-- Set a key in a metadata object (replace if present, else append). -/
def setMeta : List (String × MetaVal) → String → MetaVal → List (String × MetaVal)
  | [], k, v => [(k, v)]
  | (k0, v0) :: rest, k, v =>
      if k0 = k then (k, v) :: rest else (k0, v0) :: setMeta rest k v

/-- `metadata[REDACTED_KEY] || []`: the stored array of redacted property
names, or `[]` when the key is absent.  The key is only ever written with an
array by `redacted` itself, so a non-array value does not arise. -/
def redactedKeysOf (m : List (String × MetaVal)) : List String :=
  match getMeta m "redacted" with
  | some (MetaVal.strs l) => l
  | some (MetaVal.opaqueVal _) => []
  | none => []

/-- The `redacted` decorator from `src/decorators.ts`, as a function of the
metadata currently stored on the target (`none` when
`Reflect.getMetadata` yields nothing, making `metadata = \x7b\x7d`):
push `propertyToRedact` onto the redacted-keys array and store the object
back. -/
def redacted (propertyToRedact : String)
    (stored : Option (List (String × MetaVal))) : List (String × MetaVal) :=
  let metadata := stored.getD []
  let redactedKeys := redactedKeysOf metadata
  setMeta metadata "redacted" (MetaVal.strs (redactedKeys ++ [propertyToRedact]))

theorem getH_setH (hs : List (String × String)) (k v k' : String) :
    getH (setH hs k v) k' = if k = k' then some v else getH hs k' := by
  induction hs with
  | nil => simp [setH, getH]
  | cons p rest ih =>
    obtain ⟨k0, v0⟩ := p
    by_cases h0 : k0 = k
    · subst h0
      simp only [setH, if_pos rfl, getH]
      split_ifs <;> simp_all [getH]
    · simp only [setH, if_neg h0, getH, ih]
      split_ifs <;> simp_all

theorem getMeta_setMeta (m : List (String × MetaVal)) (k : String) (v : MetaVal)
    (k' : String) :
    getMeta (setMeta m k v) k' = if k = k' then some v else getMeta m k' := by
  induction m with
  | nil => simp [setMeta, getMeta]
  | cons p rest ih =>
    obtain ⟨k0, v0⟩ := p
    by_cases h0 : k0 = k
    · subst h0
      simp only [setMeta, if_pos rfl, getMeta]
      split_ifs <;> simp_all [getMeta]
    · simp only [setMeta, if_neg h0, getMeta, ih]
      split_ifs <;> simp_all

theorem mem_foldl_insert {α β : Type} [DecidableEq β] (g : α → β) (l : List α)
    (init : Finset β) (x : β) :
    x ∈ l.foldl (fun s v => insert (g v) s) init ↔
      x ∈ init ∨ ∃ v ∈ l, g v = x := by
  induction l generalizing init with
  | nil => simp
  | cons a t ih =>
    simp only [List.foldl_cons, ih, Finset.mem_insert, List.mem_cons]
    constructor
    · rintro (⟨h | h⟩ | ⟨v, hv, hg⟩)
      · exact Or.inr ⟨a, Or.inl rfl, h.symm⟩
      · exact Or.inl h
      · exact Or.inr ⟨v, Or.inr hv, hg⟩
    · rintro (h | ⟨v, hv | hv, hg⟩)
      · exact Or.inl (Or.inr h)
      · exact Or.inl (Or.inl (hv ▸ hg.symm))
      · exact Or.inr ⟨v, hv, hg⟩

theorem mem_validationErrorsOf (validate : Nat → Nat → String) (body : Nat)
    (vs : List Validation) (x : String) :
    x ∈ validationErrorsOf validate body vs ↔
      ∃ v ∈ vs, validate body v.schema = x := by
  simp [validationErrorsOf, mem_foldl_insert]

theorem upChar_upChar (n : Nat) : upChar (upChar n) = upChar n := by
  unfold upChar
  split_ifs <;> omega

theorem toUpperCase_toUpperCase (s : List Nat) :
    toUpperCase (toUpperCase s) = toUpperCase s := by
  simp [toUpperCase, List.map_map, Function.comp_def, upChar_upChar]

/-- C3: whenever the wrapped handler is actually invoked and its result
rejects with message `m`, the dispatcher returns a 501 response whose body is
`\x7b message: m \x7d` and whose `X-REQUEST-ID` header is the request's id;
the failure is absorbed (the dispatch function is total and always returns a
response). -/
theorem C3_handler_failure_yields_501 (validate : Nat → Nat → String)
    (handler : HTTPEvent → Except String HTTPResponse) (event : HTTPEvent)
    (vs : Option (List Validation)) (m : String)
    (hfail : handler event = Except.error m)
    (hcalled : (endpointDispatch validate handler event vs).handlerCalled = true) :
    (endpointDispatch validate handler event vs).response.statusCode = 501 ∧
    (endpointDispatch validate handler event vs).response.body =
      HTTPBody.message (MessageVal.str m) ∧
    getH (endpointDispatch validate handler event vs).response.headers
      "X-REQUEST-ID" = some event.requestContext.requestId := by
  unfold endpointDispatch at hcalled ⊢
  cases vs with
  | none =>
    simp [hfail, HTTPResponse.setBody, HTTPResponse.setStatusCode,
      HTTPResponse.addHeader, getH_setH]
  | some l =>
    by_cases h : (validationErrorsOf validate event.body l).card ≠ 0
    · simp [h] at hcalled
    · simp [h, hfail, HTTPResponse.setBody, HTTPResponse.setStatusCode,
        HTTPResponse.addHeader, getH_setH]

/-- Witness for C3 at a concrete input: a handler rejecting with "boom" and
no validations. -/
theorem C3_handler_failure_yields_501_witness :
    (endpointDispatch (fun _ _ => "") (fun _ => Except.error "boom")
      ⟨0, ⟨"id1"⟩⟩ none).response.statusCode = 501 ∧
    (endpointDispatch (fun _ _ => "") (fun _ => Except.error "boom")
      ⟨0, ⟨"id1"⟩⟩ none).response.body =
      HTTPBody.message (MessageVal.str "boom") ∧
    getH (endpointDispatch (fun _ _ => "") (fun _ => Except.error "boom")
      ⟨0, ⟨"id1"⟩⟩ none).response.headers "X-REQUEST-ID" = some "id1" :=
  C3_handler_failure_yields_501 (fun _ _ => "") (fun _ => Except.error "boom")
    ⟨0, ⟨"id1"⟩⟩ none "boom" rfl rfl

/-- C4: every response produced by `endpoint`'s wrapper — the 400 validation
path, the fulfilled-handler path and the rejected-handler path — carries the
`X-REQUEST-ID` header set to `event.requestContext.requestId`. -/
theorem C4_every_response_carries_request_id (validate : Nat → Nat → String)
    (handler : HTTPEvent → Except String HTTPResponse) (event : HTTPEvent)
    (vs : Option (List Validation)) :
    getH (endpointDispatch validate handler event vs).response.headers
      "X-REQUEST-ID" = some event.requestContext.requestId := by
  unfold endpointDispatch
  cases vs with
  | none => cases handler event <;> simp [HTTPResponse.addHeader, getH_setH]
  | some l =>
    by_cases h : (validationErrorsOf validate event.body l).card ≠ 0
    · simp [h, HTTPResponse.addHeader, getH_setH]
    · cases hh : handler event <;>
        simp [h, hh, HTTPResponse.addHeader, getH_setH]

/-- C5: when the handler is invoked and fulfils with response `r`, the
dispatcher returns `r` with status code and body untouched; its headers are
exactly `r`'s headers with the single `X-REQUEST-ID` entry set, so every
other header is unchanged. -/
theorem C5_success_only_adds_request_id (validate : Nat → Nat → String)
    (handler : HTTPEvent → Except String HTTPResponse) (event : HTTPEvent)
    (vs : Option (List Validation)) (r : HTTPResponse)
    (hok : handler event = Except.ok r)
    (hcalled : (endpointDispatch validate handler event vs).handlerCalled = true) :
    (endpointDispatch validate handler event vs).response.statusCode =
      r.statusCode ∧
    (endpointDispatch validate handler event vs).response.body = r.body ∧
    (endpointDispatch validate handler event vs).response.headers =
      setH r.headers "X-REQUEST-ID" event.requestContext.requestId ∧
    ∀ k, k ≠ "X-REQUEST-ID" →
      getH (endpointDispatch validate handler event vs).response.headers k =
        getH r.headers k := by
  unfold endpointDispatch at hcalled ⊢
  cases vs with
  | none =>
    refine ⟨by simp [hok, HTTPResponse.addHeader], by simp [hok, HTTPResponse.addHeader],
      by simp [hok, HTTPResponse.addHeader], ?_⟩
    intro k hk
    simp [hok, HTTPResponse.addHeader, getH_setH, if_neg (Ne.symm hk)]
  | some l =>
    by_cases h : (validationErrorsOf validate event.body l).card ≠ 0
    · simp [h] at hcalled
    · refine ⟨by simp [h, hok, HTTPResponse.addHeader],
        by simp [h, hok, HTTPResponse.addHeader],
        by simp [h, hok, HTTPResponse.addHeader], ?_⟩
      intro k hk
      simp [h, hok, HTTPResponse.addHeader, getH_setH, if_neg (Ne.symm hk)]

/-- Witness for C5: a handler fulfilling with a 200 response that already
carries one header. -/
theorem C5_success_only_adds_request_id_witness :
    (endpointDispatch (fun _ _ => "") (fun _ =>
        Except.ok ⟨200, HTTPBody.opaqueVal 7, [("a", "1")]⟩)
      ⟨0, ⟨"id2"⟩⟩ none).response.statusCode = 200 ∧
    (endpointDispatch (fun _ _ => "") (fun _ =>
        Except.ok ⟨200, HTTPBody.opaqueVal 7, [("a", "1")]⟩)
      ⟨0, ⟨"id2"⟩⟩ none).response.body = HTTPBody.opaqueVal 7 ∧
    (endpointDispatch (fun _ _ => "") (fun _ =>
        Except.ok ⟨200, HTTPBody.opaqueVal 7, [("a", "1")]⟩)
      ⟨0, ⟨"id2"⟩⟩ none).response.headers =
      setH [("a", "1")] "X-REQUEST-ID" "id2" ∧
    ∀ k, k ≠ "X-REQUEST-ID" →
      getH (endpointDispatch (fun _ _ => "") (fun _ =>
          Except.ok ⟨200, HTTPBody.opaqueVal 7, [("a", "1")]⟩)
        ⟨0, ⟨"id2"⟩⟩ none).response.headers k = getH [("a", "1")] k :=
  C5_success_only_adds_request_id (fun _ _ => "")
    (fun _ => Except.ok ⟨200, HTTPBody.opaqueVal 7, [("a", "1")]⟩)
    ⟨0, ⟨"id2"⟩⟩ none ⟨200, HTTPBody.opaqueVal 7, [("a", "1")]⟩ rfl rfl

/-- C8: `endpoint` registers a string action under its uppercased form (the
double `toUpperCase` collapses by idempotence), so two action strings that
differ only in letter case register under the same action key. -/
theorem C8_action_registered_uppercased (a b : List Nat) :
    registeredAction a = toUpperCase a ∧
    (toUpperCase a = toUpperCase b → registeredAction a = registeredAction b) := by
  refine ⟨toUpperCase_toUpperCase a, fun h => ?_⟩
  simp [registeredAction, h]

/-- Witness for C8: "get" (103 101 116) and "GeT" (71 101 84) register under
the same key. -/
theorem C8_action_registered_uppercased_witness :
    registeredAction [103, 101, 116] = toUpperCase [103, 101, 116] ∧
    registeredAction [103, 101, 116] = registeredAction [71, 101, 84] :=
  ⟨(C8_action_registered_uppercased [103, 101, 116] [71, 101, 84]).1,
   (C8_action_registered_uppercased [103, 101, 116] [71, 101, 84]).2 (by decide)⟩

/-- C9: `xdelete` registers exactly the record
`\x7b path, clazz: target.constructor, action: DELETE, functionName:
propertyKey, function: descriptor.value \x7d` and returns the descriptor
unchanged. -/
theorem C9_xdelete_registers_delete (path : String) (target : Target)
    (propertyKey : String) (descriptor : PropertyDescriptor) :
    xdelete path target propertyKey descriptor =
      ({ path := path
         clazz := target.constructor
         action := HttpAction.DELETE
         functionName := propertyKey
         function := descriptor.value }, descriptor) := rfl

/-- C10: `redacted` appends the given property name to the stored
redacted-keys array, keeping every previously registered key, and leaves
every other metadata entry untouched. -/
theorem C10_redacted_accumulates (k : String)
    (stored : Option (List (String × MetaVal))) :
    redactedKeysOf (redacted k stored) = redactedKeysOf (stored.getD []) ++ [k] ∧
    ∀ key, key ≠ "redacted" →
      getMeta (redacted k stored) key = getMeta (stored.getD []) key := by
  constructor
  · simp [redacted, redactedKeysOf, getMeta_setMeta]
  · intro key hk
    simp [redacted, getMeta_setMeta, if_neg (Ne.symm hk)]

/-- Witness for C10: a target already holding redacted key "a" and an
unrelated entry "x". -/
theorem C10_redacted_accumulates_witness :
    redactedKeysOf (redacted "b"
        (some [("redacted", MetaVal.strs ["a"]), ("x", MetaVal.opaqueVal 5)])) =
      redactedKeysOf
        ((some [("redacted", MetaVal.strs ["a"]), ("x", MetaVal.opaqueVal 5)] :
          Option (List (String × MetaVal))).getD []) ++ ["b"] ∧
    getMeta (redacted "b"
        (some [("redacted", MetaVal.strs ["a"]), ("x", MetaVal.opaqueVal 5)])) "x" =
      getMeta ((some [("redacted", MetaVal.strs ["a"]), ("x", MetaVal.opaqueVal 5)] :
          Option (List (String × MetaVal))).getD []) "x" :=
  ⟨(C10_redacted_accumulates "b"
      (some [("redacted", MetaVal.strs ["a"]), ("x", MetaVal.opaqueVal 5)])).1,
   (C10_redacted_accumulates "b"
      (some [("redacted", MetaVal.strs ["a"]), ("x", MetaVal.opaqueVal 5)])).2
      "x" (by decide)⟩

/-- C1 (code bug): with one validation whose validator returns the empty
string (i.e. the body is valid), the wrapper still responds 400 — with the
empty string in the message set — and never invokes the handler, because the
source adds every validator result to the error set instead of only the
non-empty ones. -/
theorem C1_all_pass_still_short_circuits :
    (endpointDispatch (fun _ _ => "")
        (fun _ => Except.ok (HTTPResponse.setBody (HTTPBody.opaqueVal 7)))
        ⟨0, ⟨"r1"⟩⟩ (some [⟨0⟩])).response.statusCode = 400 ∧
    (endpointDispatch (fun _ _ => "")
        (fun _ => Except.ok (HTTPResponse.setBody (HTTPBody.opaqueVal 7)))
        ⟨0, ⟨"r1"⟩⟩ (some [⟨0⟩])).handlerCalled = false ∧
    (endpointDispatch (fun _ _ => "")
        (fun _ => Except.ok (HTTPResponse.setBody (HTTPBody.opaqueVal 7)))
        ⟨0, ⟨"r1"⟩⟩ (some [⟨0⟩])).response.body =
      HTTPBody.message (MessageVal.strset {""}) := by
  decide

/-- C2 (code bug): with two validations, one passing (empty string) and one
failing with "bad", the 400 body's message set is `\x7b"", "bad"\x7d`,
not the claimed set `\x7b"bad"\x7d` of distinct non-empty error strings. -/
theorem C2_message_set_contains_empty_string :
    (endpointDispatch (fun _ s => if s = 0 then "" else "bad")
        (fun _ => Except.ok (HTTPResponse.setBody (HTTPBody.opaqueVal 7)))
        ⟨0, ⟨"r1"⟩⟩ (some [⟨0⟩, ⟨1⟩])).response.statusCode = 400 ∧
    (endpointDispatch (fun _ s => if s = 0 then "" else "bad")
        (fun _ => Except.ok (HTTPResponse.setBody (HTTPBody.opaqueVal 7)))
        ⟨0, ⟨"r1"⟩⟩ (some [⟨0⟩, ⟨1⟩])).response.body =
      HTTPBody.message (MessageVal.strset
        (validationErrorsOf (fun _ s => if s = 0 then "" else "bad") 0
          [⟨0⟩, ⟨1⟩])) ∧
    "" ∈ validationErrorsOf (fun _ s => if s = 0 then "" else "bad") 0
        [⟨0⟩, ⟨1⟩] ∧
    validationErrorsOf (fun _ s => if s = 0 then "" else "bad") 0 [⟨0⟩, ⟨1⟩] ≠
      ({"bad"} : Finset String) := by
  have hmem : "" ∈ validationErrorsOf (fun _ s => if s = 0 then "" else "bad") 0
      [⟨0⟩, ⟨1⟩] := by
    rw [mem_validationErrorsOf]
    exact ⟨⟨0⟩, by simp, rfl⟩
  refine ⟨rfl, rfl, hmem, fun h => ?_⟩
  rw [h] at hmem
  simp at hmem

/-- C6: `cors` always sets the origin header (static string or the supplied
function of event and response) and the credentials header ("true"/"false");
it sets the methods header exactly when an allowed-actions list was supplied
(comma-joined) and the headers header exactly when an allowed-headers map was
supplied (its keys comma-joined) — otherwise those two header slots are left
as they were on the incoming response. -/
theorem C6_cors_adds_headers (ao : AllowedOrigin) (acts : Option (List String))
    (hdrs : Option (List (String × String))) (cred : Bool)
    (event : HTTPEvent) (response : HTTPResponse) :
    getH (corsDecorate ao acts hdrs cred event response).headers
      "Access-Control-Allow-Origin" = some (originOf ao event response) ∧
    getH (corsDecorate ao acts hdrs cred event response).headers
      "Access-Control-Allow-Credentials" =
      some (if cred then "true" else "false") ∧
    (∀ l, acts = some l →
      getH (corsDecorate ao acts hdrs cred event response).headers
        "Access-Control-Allow-Methods" = some (String.intercalate ", " l)) ∧
    (acts = none →
      getH (corsDecorate ao acts hdrs cred event response).headers
        "Access-Control-Allow-Methods" =
        getH response.headers "Access-Control-Allow-Methods") ∧
    (∀ hm, hdrs = some hm →
      getH (corsDecorate ao acts hdrs cred event response).headers
        "Access-Control-Allow-Headers" =
        some (String.intercalate ", " (hm.map (fun p => p.1)))) ∧
    (hdrs = none →
      getH (corsDecorate ao acts hdrs cred event response).headers
        "Access-Control-Allow-Headers" =
        getH response.headers "Access-Control-Allow-Headers") := by
  cases acts <;> cases hdrs <;>
    simp [corsDecorate, HTTPResponse.addHeaders, HTTPResponse.addHeader,
      getH_setH]

/-- Witness for C6, matching the spec's example: a 200 response,
`allowCredentials = false`, `allowedActions = ["GET", "POST"]`, a
two-key allowed-headers map, and a static origin. -/
theorem C6_cors_adds_headers_witness :
    getH (corsDecorate (AllowedOrigin.static "o") (some ["GET", "POST"])
        (some [("h1", "x"), ("h2", "y")]) false ⟨0, ⟨"r"⟩⟩
        ⟨200, HTTPBody.opaqueVal 1, []⟩).headers
      "Access-Control-Allow-Origin" =
      some (originOf (AllowedOrigin.static "o") ⟨0, ⟨"r"⟩⟩
        ⟨200, HTTPBody.opaqueVal 1, []⟩) ∧
    getH (corsDecorate (AllowedOrigin.static "o") (some ["GET", "POST"])
        (some [("h1", "x"), ("h2", "y")]) false ⟨0, ⟨"r"⟩⟩
        ⟨200, HTTPBody.opaqueVal 1, []⟩).headers
      "Access-Control-Allow-Credentials" = some (if false then "true" else "false") ∧
    getH (corsDecorate (AllowedOrigin.static "o") (some ["GET", "POST"])
        (some [("h1", "x"), ("h2", "y")]) false ⟨0, ⟨"r"⟩⟩
        ⟨200, HTTPBody.opaqueVal 1, []⟩).headers
      "Access-Control-Allow-Methods" =
      some (String.intercalate ", " ["GET", "POST"]) ∧
    getH (corsDecorate (AllowedOrigin.static "o") (some ["GET", "POST"])
        (some [("h1", "x"), ("h2", "y")]) false ⟨0, ⟨"r"⟩⟩
        ⟨200, HTTPBody.opaqueVal 1, []⟩).headers
      "Access-Control-Allow-Headers" =
      some (String.intercalate ", "
        ([("h1", "x"), ("h2", "y")].map (fun p => p.1))) := by
  have h := C6_cors_adds_headers (AllowedOrigin.static "o") (some ["GET", "POST"])
    (some [("h1", "x"), ("h2", "y")]) false ⟨0, ⟨"r"⟩⟩
    ⟨200, HTTPBody.opaqueVal 1, []⟩
  exact ⟨h.1, h.2.1, h.2.2.1 ["GET", "POST"] rfl,
    h.2.2.2.2.1 [("h1", "x"), ("h2", "y")] rfl⟩

/-- C7: the validation pass is order-independent — the `forEach` loop calls
the validator once per validation with no short-circuit (one call per list
element, each validation's schema paired with the body), and permuting the
validations list leaves the resulting error set unchanged. -/
theorem C7_validation_order_independent (validate : Nat → Nat → String)
    (body : Nat) (vs1 vs2 : List Validation) (hperm : vs1.Perm vs2) :
    validationErrorsOf validate body vs1 = validationErrorsOf validate body vs2 ∧
    (validatorCalls body vs1).length = vs1.length ∧
    ∀ v ∈ vs1, (body, v.schema) ∈ validatorCalls body vs1 := by
  refine ⟨?_, by simp [validatorCalls], ?_⟩
  · apply Finset.ext
    intro x
    rw [mem_validationErrorsOf, mem_validationErrorsOf]
    constructor
    · rintro ⟨v, hv, hx⟩
      exact ⟨v, hperm.mem_iff.mp hv, hx⟩
    · rintro ⟨v, hv, hx⟩
      exact ⟨v, hperm.mem_iff.mpr hv, hx⟩
  · intro v hv
    simp only [validatorCalls, List.mem_map]
    exact ⟨v, hv, rfl⟩

/-- Witness for C7: the two-element list of validations and its reversal
yield the same error set. -/
theorem C7_validation_order_independent_witness :
    validationErrorsOf (fun _ s => if s = 0 then "a" else "b") 0 [⟨0⟩, ⟨1⟩] =
      validationErrorsOf (fun _ s => if s = 0 then "a" else "b") 0 [⟨1⟩, ⟨0⟩] ∧
    (validatorCalls 0 [⟨0⟩, ⟨1⟩]).length = ([⟨0⟩, ⟨1⟩] : List Validation).length ∧
    ∀ v ∈ ([⟨0⟩, ⟨1⟩] : List Validation),
      (0, v.schema) ∈ validatorCalls 0 [⟨0⟩, ⟨1⟩] :=
  C7_validation_order_independent (fun _ s => if s = 0 then "a" else "b") 0
    [⟨0⟩, ⟨1⟩] [⟨1⟩, ⟨0⟩] (by decide)

end Muts
